import Mathlib

/-!
Shallow embedding of `pkg/state/etcd.go` (package `state`): an
etcd-backed coordination repository.  The etcd client itself is an
external collaborator; its calls appear here as explicit oracle
arguments (the response the client would return) and the store, where a
claim needs its semantics, as a function from keys to optional values.
Channel sends race context cancellation in the source
(`notifyWatchEvent`); cancellation is modelled by a monotone oracle
`Ctx` giving the outcome of the i-th send attempt.
-/

namespace LinDB.State

/-- Byte strings (`[]byte` in the source) as lists of naturals. -/
abbrev Bytes := List Nat

/-- One key/value entry of an etcd `GetResponse` (`mvccpb.KeyValue`). -/
structure KeyValue where
  key : String
  value : Bytes
deriving Repr, DecidableEq

/-- The response header; only the store revision is used by the source. -/
structure ResponseHeader where
  revision : Int
deriving Repr, DecidableEq

/-- An etcd `GetResponse`: header plus the matched entries. -/
structure GetResponse where
  header : ResponseHeader
  kvs : List KeyValue
deriving Repr, DecidableEq

/-- The event types of the repository (`EventTypeModify`, `EventTypeDelete`). -/
inductive EventType where
  | modify
  | delete
deriving Repr, DecidableEq

/-- The `Event` type of the repository: a (type, key, value) triple or an error.
Fields default to zero values as in Go, so `{ err := some e }` mirrors
`&Event{Err: err}`. -/
structure Event where
  type : EventType := .modify
  key : String := ""
  value : Bytes := []
  err : Option String := none
deriving Repr, DecidableEq

/-- An event is Err-bearing when its `Err` field is set. -/
def Event.isErr (e : Event) : Bool := e.err.isSome

/-- Errors surfaced by `Get` / `getValue` / `get`: the three distinct
`fmt.Errorf` sites of the source. -/
inductive GetError where
  | notFound (key : String)
  | empty (key : String)
  | transport (key : String) (msg : String)
deriving Repr, DecidableEq

/-- Model of `getValue` (etcd.go:177-187): no entries is a not-found error, a
zero-length first value is an empty-value error, otherwise the first
value of the first entry is returned. -/
def getValue (key : String) (resp : GetResponse) : Except GetError Bytes :=
  match resp.kvs with
  | [] => .error (.notFound key)
  | firstkv :: _ =>
    if firstkv.value.length = 0 then .error (.empty key)
    else .ok firstkv.value

/-- Model of `get` (etcd.go:168-174): wraps a failed client Get into a transport
error, passes a successful response through.  `clientGet` is the oracle
for `r.client.Get`. -/
def get (key : String) (clientGet : Except String GetResponse) :
    Except GetError GetResponse :=
  match clientGet with
  | .error e => .error (.transport key e)
  | .ok resp => .ok resp

/-- Model of `Get` (etcd.go:32-38): `r.get` then `r.getValue`. -/
def Get (key : String) (clientGet : Except String GetResponse) :
    Except GetError Bytes :=
  match get key clientGet with
  | .error e => .error e
  | .ok resp => getValue key resp

/-- The key space of the store, for claims that need the semantics of
the backing store (out-of-scope collaborator, modelled by its contract). -/
def Store := String → Option Bytes

/-- Model of `Put` (etcd.go:41-47): unconditionally writes the value (empty or
not) unless the transport fails; returns the client error verbatim.
`transportErr` is the oracle for `r.client.Put` failing. -/
def Put (store : Store) (key : String) (val : Bytes)
    (transportErr : Option String) : Option String × Store :=
  match transportErr with
  | some e => (some e, store)
  | none => (none, fun k => if k = key then some val else store k)

/-- The etcd contract for a point Get against a given store state: the
response holds the single entry when the key exists, no entries
otherwise. -/
def clientGetOf (store : Store) (key : String) (rev : Int) : GetResponse :=
  { header := ⟨rev⟩
    kvs := match store key with
           | some v => [⟨key, v⟩]
           | none => [] }

/-- The governing context, as a monotone cancellation oracle: send
attempt number `i` (in program order, across setup and relay) wins the
`select` in `notifyWatchEvent` iff the context is not yet cancelled at
that attempt.  `cancelAt = none` means the context is never cancelled;
`cancelAt = some n` means attempts `0..n-1` succeed and attempts from
`n` onwards find the context done. -/
structure Ctx where
  cancelAt : Option Nat
deriving Repr, DecidableEq

/-- Whether the i-th channel-send attempt succeeds under context `c`. -/
def Ctx.sendOk (c : Ctx) (i : Nat) : Bool :=
  match c.cancelAt with
  | none => true
  | some n => decide (i < n)

/-- Model of `notifyWatchEvent` (etcd.go:133-140): a send on the event channel
racing `ctx.Done()`; returns whether the send won.  The event itself
does not influence the race. -/
def notifyWatchEvent (ctx : Ctx) (i : Nat) (_event : Event) : Bool :=
  ctx.sendOk i

/-- The etcd-side event types (`PUT`, `DELETE` of `mvccpb`). -/
inductive EtcdEventType where
  | put
  | delete
deriving Repr, DecidableEq

/-- One raw etcd watch event. -/
structure EtcdEvent where
  type : EtcdEventType
  kv : KeyValue
deriving Repr, DecidableEq

/-- One batch on the etcd watch channel: `WatchResponse` with its
`Err()` outcome and its events. -/
structure WatchResponse where
  err : Option String
  events : List EtcdEvent
deriving Repr, DecidableEq

/-- Conversion of etcd event types (etcd.go:154-157): `DELETE` maps to
`EventTypeDelete`, everything else to `EventTypeModify`. -/
def convertEventType : EtcdEventType → EventType
  | .delete => .delete
  | .put => .modify

/-- Inner loop of `handleWatchEvent` (etcd.go:153-162): relay the
events of one batch in order, each send racing cancellation.  Returns
the delivered events, the next send-attempt index, and whether the
relay survived (a lost race makes the goroutine return). -/
def relayBatch (ctx : Ctx) (i : Nat) : List EtcdEvent → List Event × Nat × Bool
  | [] => ([], i, true)
  | ev :: rest =>
    let e : Event :=
      { type := convertEventType ev.type, key := ev.kv.key, value := ev.kv.value }
    if notifyWatchEvent ctx i e then
      let (tail, j, ok) := relayBatch ctx (i + 1) rest
      (e :: tail, j, ok)
    else ([], i, false)

/-- The event trace delivered by `handleWatchEvent` (etcd.go:143-165),
starting at send-attempt index `i`.  For each batch: a non-nil `Err()`
is sent as an Err-bearing Event (a lost race returns), then the events
of the batch are relayed; the loop does NOT return after a successfully sent
error event.  When the raw channel is exhausted a final
Err-bearing "watch is closed" Event is attempted. -/
def handleWatchEventTrace (ctx : Ctx) (i : Nat) :
    List WatchResponse → List Event
  | [] =>
    if notifyWatchEvent ctx i { err := some "watch is closed" } then
      [{ err := some "watch is closed" }]
    else []
  | resp :: rest =>
    match resp.err with
    | some e =>
      if notifyWatchEvent ctx i { err := some e } then
        let (batch, j, ok) := relayBatch ctx (i + 1) resp.events
        ({ err := some e } : Event) ::
          (batch ++ if ok then handleWatchEventTrace ctx j rest else [])
      else []
    | none =>
      let (batch, j, ok) := relayBatch ctx i resp.events
      batch ++ if ok then handleWatchEventTrace ctx j rest else []

/-- Outcome of the background relay goroutine: the delivered trace and
the final state of the channel.  `defer close(ech)` (etcd.go:144) closes the
channel on every exit path. -/
structure RelayResult where
  delivered : List Event
  closed : Bool
deriving Repr, DecidableEq

/-- Model of `handleWatchEvent` as a whole, from send-attempt index `i`. -/
def handleWatchEvent (ctx : Ctx) (i : Nat) (wc : List WatchResponse) :
    RelayResult :=
  { delivered := handleWatchEventTrace ctx i wc, closed := true }

/-- Setup errors of `Watch` / `WatchPrefix`: the client Get failed (the
error is returned to the caller), or a synthesize-send lost the race
against cancellation (etcd.go:123, 207). -/
inductive WatchError where
  | getFailed (msg : String)
  | notifyFailed
deriving Repr, DecidableEq

/-- A successfully set up watch: the revision handed to `client.Watch`
via `WithRev`, the buffer depth of the output channel, the synthesized
initial events, and the full trace the caller can read from the channel
(initial events first, then the events of the background relay; the channel
is closed after the trace). -/
structure WatchResult where
  watchRevision : Int
  bufferSize : Nat
  initialEvents : List Event
  delivered : List Event
  closed : Bool
deriving Repr, DecidableEq

/-- Model of `Watch` (etcd.go:105-130): read the key (via `r.get`), open the
etcd watch at `resp.Header.Revision + 1`, make a buffer-1 channel; if
the key exists AND its value is non-empty, synthesize one Modify event
for it (abort the whole setup if that send loses to cancellation), then
hand the channel to the background relay. -/
def Watch (ctx : Ctx) (key : String) (clientGet : Except String GetResponse)
    (wc : List WatchResponse) : Except WatchError WatchResult :=
  match clientGet with
  | .error e =>
    .error (.getFailed ("get value failure for key[" ++ key ++ "], error:" ++ e))
  | .ok resp =>
    let watchRev := resp.header.revision + 1
    match resp.kvs with
    | [] =>
      .ok { watchRevision := watchRev, bufferSize := 1, initialEvents := []
            delivered := handleWatchEventTrace ctx 0 wc, closed := true }
    | firstkv :: _ =>
      if firstkv.value.length ≠ 0 then
        let initEvent : Event :=
          { type := .modify, key := key, value := firstkv.value }
        if notifyWatchEvent ctx 0 initEvent then
          .ok { watchRevision := watchRev, bufferSize := 1
                initialEvents := [initEvent]
                delivered := initEvent :: handleWatchEventTrace ctx 1 wc
                closed := true }
        else .error .notifyFailed
      else
        .ok { watchRevision := watchRev, bufferSize := 1, initialEvents := []
              delivered := handleWatchEventTrace ctx 0 wc, closed := true }

/-- The initial-snapshot loop of `WatchPrefix` (etcd.go:202-210): one
Modify event per response entry, in order, each send racing
cancellation; `none` when some send lost (the setup then aborts). -/
def synthesizeAll (ctx : Ctx) (i : Nat) :
    List KeyValue → Option (List Event × Nat)
  | [] => some ([], i)
  | kv :: rest =>
    let e : Event := { type := .modify, key := kv.key, value := kv.value }
    if notifyWatchEvent ctx i e then
      match synthesizeAll ctx (i + 1) rest with
      | some (evs, j) => some (e :: evs, j)
      | none => none
    else none

/-- Model of `WatchPrefix` (etcd.go:191-214): prefix read, watch opened at
`resp.Header.Revision + 1` with the prefix option, an UNBUFFERED
channel, one synthesized Modify event per live entry (empty values
included), then the background relay. -/
def WatchPrefix (ctx : Ctx) (prefixKey : String)
    (clientGet : Except String GetResponse) (wc : List WatchResponse) :
    Except WatchError WatchResult :=
  match clientGet with
  | .error e => .error (.getFailed e)
  | .ok resp =>
    let watchRev := resp.header.revision + 1
    match synthesizeAll ctx 0 resp.kvs with
    | none => .error .notifyFailed
    | some (initEvents, j) =>
      .ok { watchRevision := watchRev, bufferSize := 0
            initialEvents := initEvents
            delivered := initEvents ++ handleWatchEventTrace ctx j wc
            closed := true }

/-- The `Closed`-signal channel a heartbeat operation returns.  The
body of the background goroutine is `defer close(ch); h.keepAlive(...)`, so
the channel is closed exactly once, when (and only when) the keepalive
task exits; this structural fact is what the model records. -/
structure ClosedChan where
  closedOnceOnKeepAliveExit : Bool
deriving Repr, DecidableEq

/-- The observable outcome of `Heartbeat` (etcd.go:64-78).  The lease
internals (`newHeartbeat`, `grantKeepAliveLease`, `keepAlive`) live in
a file outside this package slice and enter as the oracle argument. -/
structure HeartbeatResult where
  ch : Option ClosedChan
  err : Option String
  keepAliveTaskStarted : Bool
deriving Repr, DecidableEq

/-- Model of `Heartbeat` (etcd.go:64-78): a lease-grant failure is returned
synchronously with a nil channel and no goroutine; on success a fresh
channel is returned whose close is deferred behind the background
`keepAlive` call.  `grantLease` is the oracle for
`h.grantKeepAliveLease(ctx)`. -/
def Heartbeat (grantLease : Option String) : HeartbeatResult :=
  match grantLease with
  | some e => { ch := none, err := some e, keepAliveTaskStarted := false }
  | none =>
    { ch := some { closedOnceOnKeepAliveExit := true }
      err := none
      keepAliveTaskStarted := true }

/-- The observable outcome of `PutIfNotExist` (etcd.go:83-102). -/
structure PutIfNotExistResult where
  success : Bool
  ch : Option ClosedChan
  err : Option String
  keepAliveTaskStarted : Bool
deriving Repr, DecidableEq

/-- Model of `PutIfNotExist` (etcd.go:83-102): runs the conditional put of the
heartbeat helper (`h.PutIfNotExist`, an oracle here: error, or whether
the create-if-absent transaction succeeded); on error returns
`(false, nil, err)`; when the transaction lost (key already held)
returns `(false, nil, nil)` and starts nothing; when it won, starts the
keepalive goroutine and returns `(true, ch, nil)` with the deferred
close behind `keepAlive`. -/
def PutIfNotExist (txnPut : Except String Bool) : PutIfNotExistResult :=
  match txnPut with
  | .error e =>
    { success := false, ch := none, err := some e
      keepAliveTaskStarted := false }
  | .ok true =>
    { success := true, ch := some { closedOnceOnKeepAliveExit := true }
      err := none, keepAliveTaskStarted := true }
  | .ok false =>
    { success := false, ch := none, err := none
      keepAliveTaskStarted := false }

/-- An etcd transaction response; only `Succeeded` is read. -/
structure TxnResponse where
  succeeded : Bool
deriving Repr, DecidableEq

/-- The contract of the backing store for the single transaction
`If(Compare(Value(key), "=", value)).Then(OpDelete(key))`: the
comparison holds iff the key currently stores exactly `value` (a
missing key fails a value comparison), and the delete runs only when
the comparison held.  Returns the response and the post-state. -/
def txnCompareValueThenDelete (store : Store) (key : String)
    (value : Bytes) : TxnResponse × Store :=
  match store key with
  | some v =>
    if v = value then
      (⟨true⟩, fun k => if k = key then none else store k)
    else (⟨false⟩, store)
  | none => (⟨false⟩, store)

/-- Model of `DeleteWithValue` (etcd.go:218-225): commit the compare-on-value
delete transaction; a transport/commit failure returns
`(false, err)` and leaves the store untouched, otherwise the
`Succeeded` flag of the transaction is returned with no error.
`transportErr` is the oracle for `Commit()` failing. -/
def DeleteWithValue (store : Store) (key : String) (value : Bytes)
    (transportErr : Option String) : (Bool × Option String) × Store :=
  match transportErr with
  | some e => ((false, some e), store)
  | none =>
    let (resp, store2) := txnCompareValueThenDelete store key value
    ((resp.succeeded, none), store2)

section Claims

/-- A concrete one-entry store used to instantiate store-indexed
theorems. -/
def storeA : Store := fun k => if k = "a" then some [1] else none

/-- The Modify event `WatchPrefix` synthesizes for one snapshot
entry. -/
def snapshotEvent (kv : KeyValue) : Event :=
  { type := .modify, key := kv.key, value := kv.value }

/-- Concrete point-watch result used to instantiate
`Watch_delivers_snapshot_first`. -/
def watchResA : WatchResult :=
  { watchRevision := 4, bufferSize := 1
    initialEvents := [{ type := .modify, key := "k", value := [9] }]
    delivered := { type := .modify, key := "k", value := [9] } ::
      handleWatchEventTrace ⟨none⟩ 1 []
    closed := true }

/-- Concrete prefix-watch result used to instantiate
`Watch_delivers_snapshot_first`. -/
def prefixResA : WatchResult :=
  { watchRevision := 4, bufferSize := 0
    initialEvents := [snapshotEvent ⟨"p1", [1]⟩, snapshotEvent ⟨"p2", []⟩]
    delivered := [snapshotEvent ⟨"p1", [1]⟩, snapshotEvent ⟨"p2", []⟩] ++
      handleWatchEventTrace ⟨none⟩ 2 []
    closed := true }

/-- Concrete prefix-watch result over a single empty-valued entry. -/
def prefixResB : WatchResult :=
  { watchRevision := 6, bufferSize := 0
    initialEvents := [snapshotEvent ⟨"p1", []⟩]
    delivered := [snapshotEvent ⟨"p1", []⟩] ++ handleWatchEventTrace ⟨none⟩ 1 []
    closed := true }

/-- Concrete point-watch result over a single empty-valued entry. -/
def watchResB : WatchResult :=
  { watchRevision := 6, bufferSize := 1, initialEvents := []
    delivered := handleWatchEventTrace ⟨none⟩ 0 []
    closed := true }

/-- The converted repository event for one raw etcd event
(etcd.go:153-159). -/
def relayEvent (ev : EtcdEvent) : Event :=
  { type := convertEventType ev.type, key := ev.kv.key, value := ev.kv.value }


/-- C5: for every key, Get errors in exactly two non-transport cases —
NotFound when the response has no entries, Empty when the value of the
first entry has length zero — and otherwise returns the stored value with no
error; a client error surfaces as a transport error. -/
theorem Get_error_taxonomy (key : String) (resp : GetResponse) :
    (resp.kvs = [] → Get key (.ok resp) = .error (.notFound key)) ∧
    (∀ kv rest, resp.kvs = kv :: rest → kv.value.length = 0 →
      Get key (.ok resp) = .error (.empty key)) ∧
    (∀ kv rest, resp.kvs = kv :: rest → kv.value.length ≠ 0 →
      Get key (.ok resp) = .ok kv.value) ∧
    (∀ e, Get key (.error e) = .error (.transport key e)) := by
  obtain ⟨hdr, kvs⟩ := resp
  refine ⟨?_, ?_, ?_, fun e => rfl⟩
  · intro h
    simp only at h
    subst h
    rfl
  · intro kv rest h hlen
    simp only at h
    subst h
    simp [Get, get, getValue, hlen]
  · intro kv rest h hlen
    simp only at h
    subst h
    simp [Get, get, getValue, hlen]

/-- Instantiation of `Get_error_taxonomy` at concrete inputs. -/
theorem Get_error_taxonomy_witness :
    Get "k" (.ok ⟨⟨1⟩, []⟩) = .error (.notFound "k") ∧
    Get "k" (.ok ⟨⟨1⟩, [⟨"k", []⟩]⟩) = .error (.empty "k") ∧
    Get "k" (.ok ⟨⟨1⟩, [⟨"k", [7]⟩]⟩) = .ok [7] ∧
    Get "k" (.error "boom") = .error (.transport "k" "boom") :=
  ⟨(Get_error_taxonomy "k" ⟨⟨1⟩, []⟩).1 rfl,
   (Get_error_taxonomy "k" ⟨⟨1⟩, [⟨"k", []⟩]⟩).2.1 ⟨"k", []⟩ [] rfl rfl,
   (Get_error_taxonomy "k" ⟨⟨1⟩, [⟨"k", [7]⟩]⟩).2.2.1 ⟨"k", [7]⟩ [] rfl
     (by decide),
   (Get_error_taxonomy "k" ⟨⟨1⟩, [⟨"k", [7]⟩]⟩).2.2.2 "boom"⟩

/-- C10: Put accepts an empty value without error; afterwards the key
exists in the store, yet Get of that key fails with the empty-value
error — the Put-then-Get round trip fails for empty values. -/
theorem Put_empty_then_Get_fails (store : Store) (key : String) (rev : Int) :
    (Put store key [] none).1 = none ∧
    (Put store key [] none).2 key = some [] ∧
    Get key (.ok (clientGetOf (Put store key [] none).2 key rev)) =
      .error (.empty key) := by
  refine ⟨rfl, by simp [Put], ?_⟩
  simp [Put, clientGetOf, Get, get, getValue]

/-- C6: DeleteWithValue succeeds iff the stored value equals the
expected value at transaction time; it deletes the key exactly when the
comparison holds, returns false without error when it fails, and
returns an error (with no deletion) only on transport failure. -/
theorem DeleteWithValue_compare_on_value (store : Store) (key : String)
    (value : Bytes) :
    ((DeleteWithValue store key value none).1.1 = true ↔
      store key = some value) ∧
    (DeleteWithValue store key value none).1.2 = none ∧
    (store key = some value →
      (DeleteWithValue store key value none).2 key = none) ∧
    (store key ≠ some value →
      (DeleteWithValue store key value none).2 = store) ∧
    (∀ e, (DeleteWithValue store key value (some e)).1 = (false, some e) ∧
      (DeleteWithValue store key value (some e)).2 = store) := by
  refine ⟨?_, ?_, ?_, ?_, fun e => ⟨rfl, rfl⟩⟩ <;>
    cases h : store key with
    | none =>
      simp [DeleteWithValue, txnCompareValueThenDelete, h]
      try intro hc
      try simp_all
    | some v =>
      by_cases hv : v = value <;>
        simp_all [DeleteWithValue, txnCompareValueThenDelete]

/-- Instantiation of `DeleteWithValue_compare_on_value` at a concrete
store. -/
theorem DeleteWithValue_compare_on_value_witness :
    ((DeleteWithValue storeA "a" [1] none).1.1 = true ↔
      storeA "a" = some [1]) ∧
    (DeleteWithValue storeA "a" [1] none).2 "a" = none ∧
    (storeA "b" ≠ some [1] →
      (DeleteWithValue storeA "b" [1] none).2 = storeA) :=
  ⟨(DeleteWithValue_compare_on_value storeA "a" [1]).1,
   (DeleteWithValue_compare_on_value storeA "a" [1]).2.2.1 rfl,
   (DeleteWithValue_compare_on_value storeA "b" [1]).2.2.2.1⟩

/-- C7: PutIfNotExist returns `(false, nil, nil)` with no keepalive
task when the create-if-absent transaction loses; on a win it returns
`(true, ch, nil)` with the keepalive task started and `ch` deferred to
close when that task exits; a transaction error is returned with no
channel and no task. -/
theorem PutIfNotExist_race_semantics :
    PutIfNotExist (.ok false) =
      { success := false, ch := none, err := none
        keepAliveTaskStarted := false } ∧
    PutIfNotExist (.ok true) =
      { success := true, ch := some { closedOnceOnKeepAliveExit := true }
        err := none, keepAliveTaskStarted := true } ∧
    (∀ e, PutIfNotExist (.error e) =
      { success := false, ch := none, err := some e
        keepAliveTaskStarted := false }) :=
  ⟨rfl, rfl, fun _ => rfl⟩

/-- C8: a lease-grant failure makes Heartbeat return the error
synchronously with a nil channel and no background task; on success it
returns a channel closed exactly once, when the keepalive task
exits. -/
theorem Heartbeat_setup_and_closure :
    (∀ e, Heartbeat (some e) =
      { ch := none, err := some e, keepAliveTaskStarted := false }) ∧
    Heartbeat none =
      { ch := some { closedOnceOnKeepAliveExit := true }, err := none
        keepAliveTaskStarted := true } :=
  ⟨fun _ => rfl, rfl⟩

/-- If some send attempt needed for the snapshot loses the race, the
whole synthesize loop fails. -/
theorem synthesizeAll_of_cancel (ctx : Ctx) :
    ∀ (kvs : List KeyValue) (i j : Nat), j < kvs.length →
      ctx.sendOk (i + j) = false → synthesizeAll ctx i kvs = none := by
  intro kvs
  induction kvs with
  | nil =>
    intro i j hj _
    simp at hj
  | cons kv rest ih =>
    intro i j hj hfail
    by_cases h0 : ctx.sendOk i = true
    · have hj0 : j ≠ 0 := by
        intro h
        rw [h, Nat.add_zero] at hfail
        rw [h0] at hfail
        exact Bool.true_eq_false.mp hfail
      have hrec : synthesizeAll ctx (i + 1) rest = none := by
        have harith : i + 1 + (j - 1) = i + j := by omega
        refine ih (i + 1) (j - 1) ?_ ?_
        · simp only [List.length_cons] at hj
          omega
        · rw [harith]
          exact hfail
      simp [synthesizeAll, notifyWatchEvent, h0, hrec]
    · have h0f : ctx.sendOk i = false := by
        cases hc : ctx.sendOk i
        · rfl
        · exact absurd hc h0
      simp [synthesizeAll, notifyWatchEvent, h0f]

/-- A successful synthesize loop emits exactly one Modify event per
snapshot entry, in order. -/
theorem synthesizeAll_eq_map (ctx : Ctx) :
    ∀ (kvs : List KeyValue) (i : Nat) (evs : List Event) (j : Nat),
      synthesizeAll ctx i kvs = some (evs, j) →
      evs = kvs.map snapshotEvent := by
  intro kvs
  induction kvs with
  | nil =>
    intro i evs j h
    simp [synthesizeAll] at h
    simp [h.1]
  | cons kv rest ih =>
    intro i evs j h
    simp only [synthesizeAll, notifyWatchEvent] at h
    by_cases h0 : ctx.sendOk i = true
    · rw [if_pos h0] at h
      cases hrec : synthesizeAll ctx (i + 1) rest with
      | none => rw [hrec] at h; exact absurd h (by simp)
      | some p =>
        obtain ⟨evs2, j2⟩ := p
        rw [hrec] at h
        simp only [Option.some.injEq, Prod.mk.injEq] at h
        rw [← h.1, List.map_cons, ih (i + 1) evs2 j2 hrec]
        rfl
    · rw [if_neg h0] at h
      exact absurd h (by simp)

/-- C4: both Watch and WatchPrefix open the change stream at revision
R + 1, never at R, where R is the revision in the header of the
initial read. -/
theorem Watch_opens_at_next_revision :
    (∀ ctx key resp wc r, Watch ctx key (.ok resp) wc = .ok r →
      r.watchRevision = resp.header.revision + 1 ∧
      r.watchRevision ≠ resp.header.revision) ∧
    (∀ ctx p resp wc r, WatchPrefix ctx p (.ok resp) wc = .ok r →
      r.watchRevision = resp.header.revision + 1 ∧
      r.watchRevision ≠ resp.header.revision) := by
  constructor
  · intro ctx key resp wc r h
    obtain ⟨⟨rev⟩, kvs⟩ := resp
    cases kvs with
    | nil =>
      simp only [Watch, Except.ok.injEq] at h
      rw [← h]
      refine ⟨rfl, ?_⟩
      simp
    | cons kv rest =>
      simp only [Watch] at h
      split at h
      · split at h
        · simp only [Except.ok.injEq] at h
          rw [← h]
          refine ⟨rfl, ?_⟩
          simp
        · exact absurd h (by simp)
      · simp only [Except.ok.injEq] at h
        rw [← h]
        refine ⟨rfl, ?_⟩
        simp
  · intro ctx p resp wc r h
    obtain ⟨⟨rev⟩, kvs⟩ := resp
    simp only [ WatchPrefix] at h
    split at h
    · exact absurd h (by simp)
    · simp only [Except.ok.injEq] at h
      rw [← h]
      refine ⟨rfl, ?_⟩
      simp

/-- Instantiation of `Watch_opens_at_next_revision` at concrete
inputs. -/
theorem Watch_opens_at_next_revision_witness :
    (Watch ⟨none⟩ "k" (.ok ⟨⟨7⟩, []⟩) [] =
      .ok { watchRevision := 8, bufferSize := 1, initialEvents := []
            delivered := [{ err := some "watch is closed" }]
            closed := true }) ∧
    ((8 : Int) = 7 + 1 ∧ (8 : Int) ≠ 7) ∧
    ( WatchPrefix ⟨none⟩ "p" (.ok ⟨⟨7⟩, []⟩) [] =
      .ok { watchRevision := 8, bufferSize := 0, initialEvents := []
            delivered := [{ err := some "watch is closed" }]
            closed := true }) :=
  ⟨rfl,
   Watch_opens_at_next_revision.1 ⟨none⟩ "k" ⟨⟨7⟩, []⟩ []
     { watchRevision := 8, bufferSize := 1, initialEvents := []
       delivered := [{ err := some "watch is closed" }], closed := true }
     rfl,
   rfl⟩

/-- C9: if a synthesize-send for the initial snapshot loses the race
against cancellation, both Watch and WatchPrefix abort the whole setup
and return a setup error instead of a channel. -/
theorem Watch_cancel_aborts_setup :
    (∀ ctx key hdr kv rest wc, kv.value ≠ [] → ctx.sendOk 0 = false →
      Watch ctx key (.ok ⟨hdr, kv :: rest⟩) wc = .error .notifyFailed) ∧
    (∀ ctx p hdr kvs wc j, j < (kvs : List KeyValue).length →
      ctx.sendOk j = false →
      WatchPrefix ctx p (.ok ⟨hdr, kvs⟩) wc = .error .notifyFailed) := by
  constructor
  · intro ctx key hdr kv rest wc hne hcancel
    have hlen : kv.value.length ≠ 0 := by
      simpa [List.length_eq_zero] using hne
    simp [Watch, notifyWatchEvent, hlen, hcancel]
  · intro ctx p hdr kvs wc j hj hcancel
    have hnone : synthesizeAll ctx 0 kvs = none := by
      refine synthesizeAll_of_cancel ctx kvs 0 j hj ?_
      simpa using hcancel
    simp [ WatchPrefix, hnone]

/-- Instantiation of `Watch_cancel_aborts_setup` with a context
cancelled before the first send. -/
theorem Watch_cancel_aborts_setup_witness :
    Watch ⟨some 0⟩ "k" (.ok ⟨⟨1⟩, [⟨"k", [1]⟩]⟩) [] =
      .error .notifyFailed ∧
    WatchPrefix ⟨some 0⟩ "p" (.ok ⟨⟨1⟩, [⟨"p1", []⟩]⟩) [] =
      .error .notifyFailed :=
  ⟨Watch_cancel_aborts_setup.1 ⟨some 0⟩ "k" ⟨1⟩ ⟨"k", [1]⟩ [] []
     (by decide) (by decide),
   Watch_cancel_aborts_setup.2 ⟨some 0⟩ "p" ⟨1⟩ [⟨"p1", []⟩] [] 0
     (by decide) (by decide)⟩

/-- C3: when the key exists with a non-empty value at subscription
time, Watch delivers the Modify event for it first, before anything the
background relay produces; WatchPrefix synthesizes exactly one Modify
event per snapshot entry, in order, all before any later change. -/
theorem Watch_delivers_snapshot_first :
    (∀ ctx key hdr kv rest wc r, kv.value ≠ [] →
      Watch ctx key (.ok ⟨hdr, kv :: rest⟩) wc = .ok r →
      r.initialEvents = [{ type := .modify, key := key, value := kv.value }] ∧
      r.delivered.head? =
        some { type := .modify, key := key, value := kv.value } ∧
      ∃ tail, r.delivered = r.initialEvents ++ tail) ∧
    (∀ ctx p hdr kvs wc r,
      WatchPrefix ctx p (.ok ⟨hdr, kvs⟩) wc = .ok r →
      r.initialEvents = (kvs : List KeyValue).map snapshotEvent ∧
      ∃ tail, r.delivered = r.initialEvents ++ tail) := by
  constructor
  · intro ctx key hdr kv rest wc r hne h
    have hlen : ¬kv.value.length = 0 := by
      simpa [List.length_eq_zero] using hne
    simp only [Watch] at h
    rw [if_pos hlen] at h
    split at h
    · simp only [Except.ok.injEq] at h
      rw [← h]
      exact ⟨rfl, rfl, handleWatchEventTrace ctx 1 wc, rfl⟩
    · exact absurd h (by simp)
  · intro ctx p hdr kvs wc r h
    simp only [ WatchPrefix] at h
    cases hs : synthesizeAll ctx 0 kvs with
    | none => rw [hs] at h; exact absurd h (by simp)
    | some res =>
      obtain ⟨initEvents, j⟩ := res
      rw [hs] at h
      simp only [Except.ok.injEq] at h
      rw [← h]
      exact ⟨synthesizeAll_eq_map ctx kvs 0 initEvents j hs,
        handleWatchEventTrace ctx j wc, rfl⟩

/-- Instantiation of `Watch_delivers_snapshot_first` at concrete
inputs. -/
theorem Watch_delivers_snapshot_first_witness :
    watchResA.initialEvents =
      [{ type := .modify, key := "k", value := [9] }] ∧
    watchResA.delivered.head? =
      some { type := .modify, key := "k", value := [9] } ∧
    prefixResA.initialEvents =
      List.map snapshotEvent [⟨"p1", [1]⟩, ⟨"p2", []⟩] :=
  ⟨(Watch_delivers_snapshot_first.1 ⟨none⟩ "k" ⟨3⟩ ⟨"k", [9]⟩ [] []
      watchResA (by decide) rfl).1,
   (Watch_delivers_snapshot_first.1 ⟨none⟩ "k" ⟨3⟩ ⟨"k", [9]⟩ [] []
      watchResA (by decide) rfl).2.1,
   (Watch_delivers_snapshot_first.2 ⟨none⟩ "p" ⟨3⟩
      [⟨"p1", [1]⟩, ⟨"p2", []⟩] [] prefixResA rfl).1⟩

/-- C2 (counterexample): the key "k" exists with an empty value at
subscription time, yet point Watch synthesizes NO initial Modify event
(etcd.go:120 skips the synthesis when `len(firstkv.Value) == 0`); the
only delivered event is the terminal watch-is-closed error.  This
refutes the claim that BOTH Watch and WatchPrefix synthesize a Modify
event with empty Value for an empty-valued entry. -/
theorem Watch_empty_value_skips_snapshot :
    Watch ⟨none⟩ "k" (.ok ⟨⟨5⟩, [⟨"k", []⟩]⟩) [] =
      .ok { watchRevision := 6, bufferSize := 1, initialEvents := []
            delivered := [{ err := some "watch is closed" }]
            closed := true } := rfl

/-- C2 (amended): WatchPrefix synthesizes an initial Modify event for
every snapshot entry, empty values included, but point Watch skips
synthesis entirely when the existing value is empty. -/
theorem WatchPrefix_synthesizes_empty_Watch_skips :
    (∀ ctx p hdr kvs wc r kv,
      WatchPrefix ctx p (.ok ⟨hdr, kvs⟩) wc = .ok r →
      kv ∈ (kvs : List KeyValue) → snapshotEvent kv ∈ r.initialEvents) ∧
    (∀ ctx key hdr kv rest wc r, kv.value = [] →
      Watch ctx key (.ok ⟨hdr, kv :: rest⟩) wc = .ok r →
      r.initialEvents = []) := by
  constructor
  · intro ctx p hdr kvs wc r kv h hmem
    simp only [ WatchPrefix] at h
    cases hs : synthesizeAll ctx 0 kvs with
    | none => rw [hs] at h; exact absurd h (by simp)
    | some res =>
      obtain ⟨initEvents, j⟩ := res
      rw [hs] at h
      simp only [Except.ok.injEq] at h
      rw [← h]
      have hmap := synthesizeAll_eq_map ctx kvs 0 initEvents j hs
      simp only [hmap]
      exact List.mem_map_of_mem snapshotEvent hmem
  · intro ctx key hdr kv rest wc r hv h
    have hlen : kv.value.length = 0 := by simp [hv]
    simp only [Watch] at h
    rw [if_neg (by simp [hlen])] at h
    simp only [Except.ok.injEq] at h
    rw [← h]

/-- Instantiation of `WatchPrefix_synthesizes_empty_Watch_skips` at
concrete inputs. -/
theorem WatchPrefix_synthesizes_empty_Watch_skips_witness :
    snapshotEvent ⟨"p1", []⟩ ∈ prefixResB.initialEvents ∧
    watchResB.initialEvents = [] :=
  ⟨ WatchPrefix_synthesizes_empty_Watch_skips.1 ⟨none⟩ "p" ⟨5⟩
     [⟨"p1", []⟩] [] prefixResB ⟨"p1", []⟩ rfl (by simp),
   WatchPrefix_synthesizes_empty_Watch_skips.2 ⟨none⟩ "k" ⟨5⟩
     ⟨"k", []⟩ [] [] watchResB rfl rfl⟩

/-- Under a never-cancelled context every send of one batch succeeds:
the batch is relayed in full, in order. -/
theorem relayBatch_nocancel (evs : List EtcdEvent) :
    ∀ i, relayBatch ⟨none⟩ i evs =
      (evs.map relayEvent, i + evs.length, true) := by
  induction evs with
  | nil => intro i; simp [relayBatch]
  | cons ev rest ih =>
    intro i
    simp [relayBatch, relayEvent, notifyWatchEvent, Ctx.sendOk, ih (i + 1)]
    omega

/-- Under a never-cancelled context the relay trace always ends with
the terminal watch-is-closed error event. -/
theorem handleWatchEventTrace_ends_with_closed (wc : List WatchResponse) :
    ∀ i, ∃ pre, handleWatchEventTrace ⟨none⟩ i wc =
      pre ++ [{ err := some "watch is closed" }] := by
  induction wc with
  | nil =>
    intro i
    exact ⟨[], by simp [handleWatchEventTrace, notifyWatchEvent, Ctx.sendOk]⟩
  | cons resp rest ih =>
    intro i
    cases herr : resp.err with
    | none =>
      obtain ⟨pre, hp⟩ := ih (i + resp.events.length)
      refine ⟨resp.events.map relayEvent ++ pre, ?_⟩
      simp only [handleWatchEventTrace, herr, relayBatch_nocancel, hp]
      simp [List.append_assoc]
    | some e =>
      obtain ⟨pre, hp⟩ := ih (i + 1 + resp.events.length)
      refine ⟨({ err := some e } : Event) ::
        (resp.events.map relayEvent ++ pre), ?_⟩
      simp only [handleWatchEventTrace, herr, notifyWatchEvent, Ctx.sendOk,
        relayBatch_nocancel, hp]
      simp [List.append_assoc]

/-- C1 (counterexample): a watch channel produced by Watch delivers an
Err-bearing Event (the mid-stream error of the first batch) and then
TWO further Events — the Modify event of the batch and the terminal
watch-is-closed error — because `handleWatchEvent` does not return
after notifying a mid-stream error (etcd.go:147-151 falls through to
the event loop and the next iteration).  This refutes the claim that
after an Err-bearing Event no further Event is ever delivered. -/
theorem Watch_err_event_not_terminal :
    Watch ⟨none⟩ "k" (.ok ⟨⟨1⟩, []⟩)
        [⟨some "stream error", [⟨.put, ⟨"k2", [3]⟩⟩]⟩] =
      .ok { watchRevision := 2, bufferSize := 1, initialEvents := []
            delivered := [{ err := some "stream error" },
              { type := .modify, key := "k2", value := [3] },
              { err := some "watch is closed" }]
            closed := true } := rfl

/-- C1 (amended): the relay goroutine always closes the channel when it
exits (deferred close on every path), and when the raw stream ends
without cancellation the LAST delivered Event is the Err-bearing
watch-is-closed Event, after which nothing more is delivered; but an
Err-bearing Event for a mid-stream error need not be terminal. -/
theorem handleWatchEvent_close_and_final_err :
    (∀ ctx i wc, (handleWatchEvent ctx i wc).closed = true) ∧
    (∀ i wc, ∃ pre, (handleWatchEvent ⟨none⟩ i wc).delivered =
      pre ++ [{ err := some "watch is closed" }]) :=
  ⟨fun _ _ _ => rfl,
   fun i wc => handleWatchEventTrace_ends_with_closed wc i⟩

end Claims

end LinDB.State
